import Mathlib

/-!
Verification development for the NG-word monitoring tool (`script.py`).

The Python program polls a search API for posts matching watch-terms,
resolves authoring accounts, filters them by account-metadata heuristics and
records history.  This file gives a shallow embedding of the core pipeline:

* string normalization (`normalize_words`, `quote_if_space`, `build_query`),
* the rate-limit cooldown (`handle_429`, `is_in_cooldown`),
* the cached API calls (`call_search_api` / `call_users_api` wrapped by the
  300-second `st.cache_data` response cache),
* one monitor cycle (`monitor_job_once`) and the foreground run-once path
  (`run_query_flow`), modelled as state-passing functions that also emit a
  trace of observable events (outbound requests, history inserts, log rows,
  UI messages), and
* the result filters (the three-criterion monitor filter and the
  six-criterion foreground `apply_filters`).

Time is an explicit `Nat` parameter (seconds); outbound request events
record the ambient clock and limiter state at the moment of issue so that
temporal claims about the cooldown gate can be stated over traces.
-/

namespace TN

/-- Model of a Python string as its list of characters. -/
abbrev Str := List Char

/-- Python's unicode whitespace predicate, as used by `str.split()`,
`str.strip()` and `str.isspace()` (covers the ASCII whitespace characters,
the C1/latin-1 spaces and the unicode space separators, including the
ideographic space U+3000). -/
def pyIsSpace (c : Char) : Bool :=
  let n := c.toNat
  n = 32 || n = 9 || n = 10 || n = 13 || n = 11 || n = 12 ||
  (28 ≤ n && n ≤ 31) || n = 0x85 || n = 0xa0 || n = 0x1680 ||
  (0x2000 ≤ n && n ≤ 0x200a) || n = 0x2028 || n = 0x2029 ||
  n = 0x202f || n = 0x205f || n = 0x3000

/-- Character-wise model of `raw.replace(",", " ").replace("　", " ")`
(both replaced patterns are single characters). -/
def mapSep (c : Char) : Char :=
  if c = ',' || c = '　' then ' ' else c

/-- One step of splitting on whitespace, consuming the string from the
right: the accumulator is (finished words, current word). -/
def splitWsAux (c : Char) (acc : List Str × Str) : List Str × Str :=
  if pyIsSpace c then
    (if acc.2 = [] then acc.1 else acc.2 :: acc.1, [])
  else
    (acc.1, c :: acc.2)

/-- Model of Python `s.split()` (no separator argument): maximal runs of
non-whitespace characters, in order; leading/trailing/repeated whitespace
produces no empty tokens. -/
def splitWs (s : Str) : List Str :=
  let r := s.foldr splitWsAux ([], [])
  if r.2 = [] then r.1 else r.2 :: r.1

/-- Model of Python `w.strip()`. -/
def pyStrip (w : Str) : Str :=
  ((w.dropWhile pyIsSpace).reverse.dropWhile pyIsSpace).reverse

/-- `normalize_words` from the source:
`if not raw: return []`, replace commas and ideographic spaces by blanks,
split on whitespace, and keep the stripped non-empty tokens. -/
def normalize_words (raw : Str) : List Str :=
  if raw = [] then []
  else
    (splitWs (raw.map mapSep)).filterMap (fun w =>
      let t := pyStrip w
      if t = [] then none else some t)

/-- `quote_if_space` from the source: wrap the term in double quotes when
any of its characters is whitespace. -/
def quote_if_space (w : Str) : Str :=
  if w.any pyIsSpace then '"' :: w ++ ['"'] else w

/-- The `max(10, min(max_results, 100))` clamp applied to the requested
result count. -/
def boundResults (mr : Nat) : Nat :=
  max 10 (min mr 100)

/-- Request parameters of a search call (the constant `tweet.fields` entry
is the same for every call and is omitted). -/
structure SearchParams where
  query : Str
  max_results : Nat
deriving DecidableEq

/-- The parameters built for a single monitor term `w`:
`{"query": f"{query} -is:retweet", "max_results": max(10, min(mr, 100))}`
with `query = quote_if_space w`. -/
def termParams (w : Str) (mr : Nat) : SearchParams :=
  ⟨quote_if_space w ++ (" -is:retweet".data), boundResults mr⟩

/-- `build_query` from the source: normalize the raw input; with no
remaining words return the empty-query signal `("", {})` (modelled as
`([], none)`); otherwise `OR`-join the quoted words and build the request
parameters. -/
def build_query (raw : Str) (mr : Nat) : Str × Option SearchParams :=
  let words := normalize_words raw
  if words = [] then ([], none)
  else
    let query := List.intercalate (" OR ".data) (words.map quote_if_space)
    (query, some ⟨query ++ (" -is:retweet".data), boundResults mr⟩)

/-- `RATE_COOLDOWN_SECONDS` from the source. -/
def RATE_COOLDOWN_SECONDS : Nat := 60

/-- `is_in_cooldown` from the source, with the global `_last_429_time` and
`time.time()` made explicit: `False` when no 429 was ever recorded,
otherwise `(now - last429) < 60`. -/
def is_in_cooldown (now : Nat) (last429 : Option Nat) : Bool :=
  match last429 with
  | none => false
  | some t => now - t < RATE_COOLDOWN_SECONDS

/-- A tweet as used by the pipeline (only `author_id` matters to the
monitor; the other requested fields are carried for completeness). -/
structure Tweet where
  author_id : String
  text : String
  created_at : String
deriving DecidableEq

/-- An account object returned by the users API.  `public_metrics` is a
JSON object modelled as an optional association list (absent key ↦ `none`,
present-but-empty object ↦ `some []`). -/
structure MonUser where
  id : String
  username : Option String
  name : Option String
  profile_image_url : Option String
  verified : Bool
  public_metrics : Option (List (String × Nat))
deriving DecidableEq

/-- JSON body of a 200 search response; the `data` key may be absent. -/
structure SearchBody where
  data : Option (List Tweet)
deriving DecidableEq

/-- JSON body of a 200 users response; the `data` key may be absent. -/
structure UsersBody where
  data : Option (List MonUser)
deriving DecidableEq

/-- The dictionary returned by `call_search_api` / `call_users_api`:
either an error dict `{"error": msg}` (every error message the code builds
is a non-empty string, so dict truthiness coincides with the `err`
constructor) or the parsed 200 JSON body. -/
inductive Resp (α : Type) where
  | err (msg : String)
  | ok (body : α)
deriving DecidableEq

/-- What the network does for one issued request. -/
inductive HttpOutcome (α : Type) where
  | exn (msg : String)
  | resp (status : Nat) (body : String) (json : α)

/-- Observable events of a run.  Request events record the ambient clock
and the limiter state (`_last_429_time`) at the moment the request is
issued, so temporal properties of the cooldown gate can be stated over
traces. -/
inductive Event where
  | searchReq (params : SearchParams) (now : Nat) (l429 : Option Nat)
  | usersReq (ids : List String) (now : Nat) (l429 : Option Nat)
  | histIns (query : Str) (hits : Nat)
  | logRec (level : String) (msg : String)
  | uiMsg (msg : String)
deriving DecidableEq

/-- Process-wide mutable state: the cooldown timestamp and the two
`st.cache_data` response caches (key, cached value, insertion time). -/
structure SysState where
  last429 : Option Nat
  searchCache : List (SearchParams × Resp SearchBody × Nat)
  usersCache : List (List String × Resp UsersBody × Nat)

/-- `handle_429` from the source: record the trip time and log a warning. -/
def handle_429 (now : Nat) (s : SysState) : SysState × List Event :=
  ({ s with last429 := some now }, [Event.logRec "WARN" "429 received, entering cooldown"])

/-- Look up a response cache: a hit is an entry with the exact same key
whose age is below the ttl. -/
def cacheLookup {K V : Type} [DecidableEq K]
    (c : List (K × V × Nat)) (k : K) (now ttl : Nat) : Option V :=
  match c.find? (fun e => decide (e.1 = k)) with
  | some e => if now - e.2.2 < ttl then some e.2.1 else none
  | none => none

/-- Store a computed value in a response cache, replacing any previous
entry for the same key. -/
def cacheStore {K V : Type} [DecidableEq K]
    (c : List (K × V × Nat)) (k : K) (v : V) (now : Nat) : List (K × V × Nat) :=
  (k, v, now) :: c.filter (fun e => !decide (e.1 = k))

/-- The environment of a run: the configured bearer credential and the
network's behaviour for each request. -/
structure Env where
  bearer : Option String
  searchNet : SearchParams → HttpOutcome SearchBody
  usersNet : List String → HttpOutcome UsersBody

/-- Body of `call_search_api` (inside the cache decorator): missing
credential short-circuits; an issued request is an event; a raised
exception, a 429 (which trips the limiter via `handle_429`) and any other
non-200 status map to error dicts; a 200 returns the JSON body. -/
def call_search_api_raw (env : Env) (p : SearchParams) (now : Nat) (s : SysState) :
    Resp SearchBody × SysState × List Event :=
  match env.bearer with
  | none => (Resp.err "API token not set", s, [])
  | some _ =>
    match env.searchNet p with
    | HttpOutcome.exn e =>
        (Resp.err ("通信エラー: " ++ e), s,
         [Event.searchReq p now s.last429,
          Event.logRec "ERROR" ("search request exception: " ++ e)])
    | HttpOutcome.resp code body json =>
        if code = 429 then
          let r := handle_429 now s
          (Resp.err "429", r.1, Event.searchReq p now s.last429 :: r.2)
        else if code = 200 then
          (Resp.ok json, s, [Event.searchReq p now s.last429])
        else
          (Resp.err (toString code ++ " " ++ body), s,
           [Event.searchReq p now s.last429,
            Event.logRec "ERROR" ("search returned " ++ toString code ++ " " ++ body)])

/-- Body of `call_users_api` (inside the cache decorator).  Note the order
of the two early returns: the credential check precedes the empty-id check. -/
def call_users_api_raw (env : Env) (ids : List String) (now : Nat) (s : SysState) :
    Resp UsersBody × SysState × List Event :=
  match env.bearer with
  | none => (Resp.err "API token not set", s, [])
  | some _ =>
    if ids = [] then (Resp.ok ⟨some []⟩, s, [])
    else
      match env.usersNet ids with
      | HttpOutcome.exn e =>
          (Resp.err ("通信エラー: " ++ e), s,
           [Event.usersReq ids now s.last429,
            Event.logRec "ERROR" ("users request exception: " ++ e)])
      | HttpOutcome.resp code body json =>
          if code = 429 then
            let r := handle_429 now s
            (Resp.err "429", r.1, Event.usersReq ids now s.last429 :: r.2)
          else if code = 200 then
            (Resp.ok json, s, [Event.usersReq ids now s.last429])
          else
            (Resp.err (toString code ++ " " ++ body), s,
             [Event.usersReq ids now s.last429,
              Event.logRec "ERROR" ("users returned " ++ toString code ++ " " ++ body)])

/-- `call_search_api` as callers see it: the `@st.cache_data(ttl=300)`
wrapper around the body.  A cache hit (same parameters, inserted less than
300 seconds ago) returns the stored dictionary — whatever it was — without
running the body; a miss runs the body and stores its result. -/
def call_search_api (env : Env) (p : SearchParams) (now : Nat) (s : SysState) :
    Resp SearchBody × SysState × List Event :=
  match cacheLookup s.searchCache p now 300 with
  | some r => (r, s, [])
  | none =>
    match call_search_api_raw env p now s with
    | (r, s1, ev) => (r, { s1 with searchCache := cacheStore s1.searchCache p r now }, ev)

/-- `call_users_api` as callers see it: the `@st.cache_data(ttl=300)`
wrapper around the body, keyed by the id list. -/
def call_users_api (env : Env) (ids : List String) (now : Nat) (s : SysState) :
    Resp UsersBody × SysState × List Event :=
  match cacheLookup s.usersCache ids now 300 with
  | some r => (r, s, [])
  | none =>
    match call_users_api_raw env ids now s with
    | (r, s1, ev) => (r, { s1 with usersCache := cacheStore s1.usersCache ids r now }, ev)

/-- The three filter settings that `start_mon` actually passes to the
scheduler: `{"require_no_posts": …, "min_followers": …, "min_following": …}`. -/
structure MonFilters where
  require_no_posts : Bool
  min_followers : Nat
  min_following : Nat
deriving DecidableEq

/-- All filter settings offered by the UI (the `FilterCriteria` snapshot of
the spec): zero / `false` means unconstrained. -/
structure UICriteria where
  require_no_posts : Bool
  require_default_icon : Bool
  min_followers : Nat
  min_following : Nat
  verified_only : Bool
  min_tweet_count : Nat
deriving DecidableEq

/-- The filter dictionary built at the `start_mon` button:
only `require_no_posts`, `min_followers` and `min_following` are copied
from the UI snapshot into the dict handed to the scheduler. -/
def start_mon_filters (ui : UICriteria) : MonFilters :=
  ⟨ui.require_no_posts, ui.min_followers, ui.min_following⟩

/-- Python `pm.get(k, d)` on a JSON object modelled as an association
list. -/
def dictGet (pm : List (String × Nat)) (k : String) (d : Nat) : Nat :=
  match pm.find? (fun e => e.1 == k) with
  | some e => e.2
  | none => d

/-- `u.get("public_metrics", {})`. -/
def pmOf (u : MonUser) : List (String × Nat) :=
  u.public_metrics.getD []

/-- `pm.get("tweet_count", 0)`. -/
def tweetCountOf (u : MonUser) : Nat :=
  dictGet (pmOf u) "tweet_count" 0

/-- `pm.get("followers_count", 0) if pm else None` (an empty or absent
`public_metrics` object is falsy). -/
def followerCountOf (u : MonUser) : Option Nat :=
  if pmOf u = [] then none else some (dictGet (pmOf u) "followers_count" 0)

/-- `pm.get("following_count", 0) if pm else None`. -/
def followingCountOf (u : MonUser) : Option Nat :=
  if pmOf u = [] then none else some (dictGet (pmOf u) "following_count" 0)

/-- `count is None or count < m`. -/
def belowMin (v : Option Nat) (m : Nat) : Bool :=
  match v with
  | none => true
  | some x => x < m

/-- The per-account check of the monitor loop (lines 216–228 of the
source): start from `ok = True` and knock it down on
`require_no_posts ∧ tweet_count > 0`, on a truthy (non-zero)
`min_followers` with absent-or-too-small follower count, and likewise for
`min_following`.  The account is kept exactly when `ok` survives. -/
def monitorAccountOk (f : MonFilters) (u : MonUser) : Bool :=
  (!(f.require_no_posts && decide (0 < tweetCountOf u))) &&
  (!(decide (f.min_followers ≠ 0) && belowMin (followerCountOf u) f.min_followers)) &&
  (!(decide (f.min_following ≠ 0) && belowMin (followingCountOf u) f.min_following))

/-- First-occurrence deduplication with an accumulator of already seen
elements; models Python's `list({…})` set construction (the set's iteration
order is unspecified in Python, so a canonical order is chosen). -/
def dedupAux (seen : List String) : List String → List String
  | [] => []
  | x :: xs => if x ∈ seen then dedupAux seen xs else x :: dedupAux (x :: seen) xs

/-- `list({t["author_id"] for t in tweets})`: the distinct author ids of a
search response. -/
def searchUserIds (tweets : List Tweet) : List String :=
  dedupAux [] (tweets.map Tweet.author_id)

/-- Insert into a Python dict modelled as an association list: an existing
key keeps its position and gets the new value, a new key is appended. -/
def dictInsert (d : List (String × MonUser)) (k : String) (v : MonUser) :
    List (String × MonUser) :=
  if d.any (fun e => e.1 == k) then
    d.map (fun e => if e.1 == k then (k, v) else e)
  else d ++ [(k, v)]

/-- `{u["id"]: u for u in us}` as an association list. -/
def dictById (us : List MonUser) : List (String × MonUser) :=
  us.foldl (fun d u => dictInsert d u.id u) []

/-- `list({u["id"]: u for u in us}.values())`: the cycle-final
deduplication of discovered accounts by id. -/
def uniqueById (us : List MonUser) : List MonUser :=
  (dictById us).map (fun e => e.2)

/-- Result of one step (or one whole cycle) of the monitor: the final
state, the emitted events and the accumulated `discovered` accounts. -/
structure StepOut where
  state : SysState
  events : List Event
  disc : List MonUser

/-- The toast shown when the monitor's search reports a 429. -/
def toast429 : String := "API制限により監視一時停止（自動再開予定）"

/-- One iteration of the `for w in ng_words` loop of `monitor_job_once`
at clock `now`: build the single-term query, check the cooldown (skipping
with a warning), issue the cached search, bail out (without a history row)
on an error dict, record a zero-hit history row on an empty result, else
look up the distinct authors, bail out (without a history row) on a users
error, filter the returned accounts and record a history row with the
number of returned accounts. -/
def processTerm (env : Env) (f : MonFilters) (mr : Nat) (s : SysState)
    (w : Str) (now : Nat) : StepOut :=
  let query := quote_if_space w
  let p := termParams w mr
  if is_in_cooldown now s.last429 then
    ⟨s, [Event.logRec "WARN" "In cooldown; skipping searches"], []⟩
  else
    match call_search_api env p now s with
    | (Resp.err m, s1, ev1) =>
      if m = "429" then ⟨s1, ev1 ++ [Event.uiMsg toast429], []⟩
      else ⟨s1, ev1 ++ [Event.logRec "ERROR" ("search error for " ++ String.mk w ++ ": " ++ m)], []⟩
    | (Resp.ok body, s1, ev1) =>
      match body.data.getD [] with
      | [] =>
        ⟨s1, ev1 ++ [Event.logRec "INFO" (String.mk w ++ ": no hits"), Event.histIns query 0], []⟩
      | t :: ts =>
        let ids := searchUserIds (t :: ts)
        match call_users_api env ids now s1 with
        | (Resp.err m, s2, ev2) =>
          ⟨s2, ev1 ++ ev2 ++ [Event.logRec "ERROR" ("users error: " ++ m)], []⟩
        | (Resp.ok ub, s2, ev2) =>
          let users := ub.data.getD []
          ⟨s2, ev1 ++ ev2 ++ [Event.histIns query users.length],
           users.filter (monitorAccountOk f)⟩

/-- The whole `for w in ng_words` loop: each term is processed at its own
clock instant, threading the state and concatenating events and discovered
accounts. -/
def monitorLoop (env : Env) (f : MonFilters) (mr : Nat) :
    List (Str × Nat) → SysState → StepOut
  | [], s => ⟨s, [], []⟩
  | (w, now) :: rest, s =>
    let o1 := processTerm env f mr s w now
    let o2 := monitorLoop env f mr rest o1.state
    ⟨o2.state, o1.events ++ o2.events, o1.disc ++ o2.disc⟩

/-- `monitor_job_once`: run the loop over the terms, deduplicate the
discovered accounts by id, and log the discovery count when it is
non-empty.  Returns the deduplicated accounts in `disc`. -/
def monitor_job_once (env : Env) (f : MonFilters) (mr : Nat)
    (terms : List (Str × Nat)) (s : SysState) : StepOut :=
  let o := monitorLoop env f mr terms s
  let uniq := uniqueById o.disc
  ⟨o.state,
   o.events ++ (if uniq = [] then [] else
     [Event.logRec "INFO" ("monitor discovered " ++ toString uniq.length)]),
   uniq⟩

/-- The cooldown message of the foreground run-once path. -/
def rateLimitMsg : String := "APIのレート制限により現在一時的に実行できません。しばらく待ってください。"

/-- The foreground `if run_query:` block, modelled through its API
activity: cooldown pre-check, `build_query`, empty-query warning, cached
search, history insert with the hit count, and — when there are hits — the
cached account lookup on the distinct author ids.  The subsequent row
building, filtering and export run on already-fetched data and emit no
further API requests. -/
def run_query_flow (env : Env) (mr : Nat) (raw : Str) (now : Nat) (s : SysState) :
    SysState × List Event :=
  if is_in_cooldown now s.last429 then (s, [Event.uiMsg rateLimitMsg])
  else
    let bq := build_query raw mr
    if bq.1 = [] then (s, [Event.uiMsg "NGワードを入力してください。"])
    else
      match bq.2 with
      | none => (s, [])
      | some p =>
        match call_search_api env p now s with
        | (Resp.err m, s1, ev1) => (s1, ev1 ++ [Event.uiMsg ("検索エラー: " ++ m)])
        | (Resp.ok body, s1, ev1) =>
          let data := body.data.getD []
          let evh := [Event.histIns bq.1 data.length]
          if data = [] then (s1, ev1 ++ evh ++ [Event.uiMsg "該当するツイートはありませんでした。"])
          else
            match call_users_api env (searchUserIds data) now s1 with
            | (Resp.err m, s2, ev2) =>
              (s2, ev1 ++ evh ++ ev2 ++ [Event.uiMsg ("ユーザー情報取得エラー: " ++ m)])
            | (Resp.ok _, s2, ev2) => (s2, ev1 ++ evh ++ ev2)

/-- Is `pat` a leading segment of `s`? -/
def leadMatch : Str → Str → Bool
  | _, [] => true
  | [], _ :: _ => false
  | c :: cs, p :: ps => (c = p) && leadMatch cs ps

/-- Does `pat` occur as a contiguous segment of `s`?  Models pandas
`str.contains(pat)` on a plain (non-regex-significant) pattern. -/
def occursIn (pat : Str) : Str → Bool
  | [] => pat.isEmpty
  | c :: cs => leadMatch (c :: cs) pat || occursIn pat cs

/-- One row of the foreground result table (the pandas columns that
`apply_filters` reads; a missing numeric cell is `none`, i.e. NaN). -/
structure Row where
  tweet_count : Option Nat
  followers : Option Nat
  following : Option Nat
  verified : Bool
  icon : Option String
deriving DecidableEq

/-- The foreground `apply_filters` (lines 350–364 of the source) evaluated
on one row: each active criterion keeps the row only if its condition
holds.  `tweet_count == 0` on a NaN cell is `False`; the `min_*` filters
compare against `fillna(0)`; the default-icon test passes on a null icon or
one containing a `default_profile` marker. -/
def rowPasses (c : UICriteria) (r : Row) : Bool :=
  (!c.require_no_posts || r.tweet_count == some 0) &&
  (!c.require_default_icon ||
    (match r.icon with
     | none => true
     | some s => occursIn ("default_profile".data) s.data ||
                 occursIn ("default_profile_images".data) s.data)) &&
  (decide (c.min_followers = 0) || decide (c.min_followers ≤ r.followers.getD 0)) &&
  (decide (c.min_following = 0) || decide (c.min_following ≤ r.following.getD 0)) &&
  (!c.verified_only || r.verified) &&
  (decide (c.min_tweet_count = 0) || decide (c.min_tweet_count ≤ r.tweet_count.getD 0))

/-- `c'` is `c` with exactly one additional criterion activated: a boolean
criterion flipped from `false` to `true`, or a `min_*` threshold raised
from zero to a positive value. -/
def activated (c c' : UICriteria) : Prop :=
  (c.require_no_posts = false ∧ c' = { c with require_no_posts := true }) ∨
  (c.require_default_icon = false ∧ c' = { c with require_default_icon := true }) ∨
  (c.verified_only = false ∧ c' = { c with verified_only := true }) ∨
  (c.min_followers = 0 ∧ ∃ k, 0 < k ∧ c' = { c with min_followers := k }) ∨
  (c.min_following = 0 ∧ ∃ k, 0 < k ∧ c' = { c with min_following := k }) ∨
  (c.min_tweet_count = 0 ∧ ∃ k, 0 < k ∧ c' = { c with min_tweet_count := k })

/-- The six-criterion account filter as the spec's §4.4 describes it
(`Filter.matches`): all active criteria must hold; missing metadata fails
a `min_*` threshold; `require_default_avatar` passes on an absent avatar
URL or a default-avatar marker; `require_zero_posts` demands a zero post
count; `verified_only` demands the verified flag.  This definition follows
the spec's words (for comparison with the code's monitor filter), not the
source. -/
def specSixCriteriaMatches (c : UICriteria) (u : MonUser) : Bool :=
  (!c.require_no_posts || decide (tweetCountOf u = 0)) &&
  (!c.require_default_icon ||
    (match u.profile_image_url with
     | none => true
     | some s => decide (s = "") || occursIn ("default_profile".data) s.data)) &&
  (decide (c.min_followers = 0) ||
    (match followerCountOf u with
     | none => false
     | some x => decide (c.min_followers ≤ x))) &&
  (decide (c.min_following = 0) ||
    (match followingCountOf u with
     | none => false
     | some x => decide (c.min_following ≤ x))) &&
  (!c.verified_only || u.verified) &&
  (decide (c.min_tweet_count = 0) || decide (c.min_tweet_count ≤ tweetCountOf u))

/-- Count the history inserts in a trace. -/
def histCount (evs : List Event) : Nat :=
  evs.countP (fun ev => match ev with | Event.histIns _ _ => true | _ => false)

/-- An event respects the cooldown gate: if it is an outbound request, the
limiter was not cooling down at the recorded instant. -/
def coolOkEv : Event → Prop
  | Event.searchReq _ n l => is_in_cooldown n l = false
  | Event.usersReq _ n l => is_in_cooldown n l = false
  | _ => True

/-- Concrete network environment used to exercise the cache: every search
request fails with HTTP 500. -/
def c3Env : Env :=
  ⟨some "tok", fun _ => HttpOutcome.resp 500 "boom" ⟨none⟩, fun _ => HttpOutcome.exn "x"⟩

/-- Concrete search parameters used to exercise the cache. -/
def c3P : SearchParams := ⟨"q".data, 10⟩

/-- Concrete network environment whose search succeeds with one tweet. -/
def c3EnvOk : Env :=
  ⟨some "tok", fun _ => HttpOutcome.resp 200 "" ⟨some [⟨"a1", "x", "y"⟩]⟩,
   fun _ => HttpOutcome.exn "x"⟩

/-- The condition under which one term iteration of the monitor writes a
history row, phrased after the amended claim: the term's search must be
executed (no cooldown skip) and succeed, and either it has no hits or the
account lookup also succeeds. -/
def termWritesHistory (env : Env) (mr : Nat) (s : SysState) (w : Str) (now : Nat) : Bool :=
  if is_in_cooldown now s.last429 then false
  else
    match call_search_api env (termParams w mr) now s with
    | (Resp.err _, _, _) => false
    | (Resp.ok body, s1, _) =>
      match body.data.getD [] with
      | [] => true
      | t :: ts =>
        match (call_users_api env (searchUserIds (t :: ts)) now s1).1 with
        | Resp.err _ => false
        | Resp.ok _ => true

/-- The accounts fetched (returned by the users API) during one term
iteration of the monitor, phrased after the amended claim: empty unless
the iteration reaches a successful account lookup. -/
def fetchedUsersOfTerm (env : Env) (mr : Nat) (s : SysState) (w : Str) (now : Nat) :
    List MonUser :=
  if is_in_cooldown now s.last429 then []
  else
    match call_search_api env (termParams w mr) now s with
    | (Resp.err _, _, _) => []
    | (Resp.ok body, s1, _) =>
      match body.data.getD [] with
      | [] => []
      | t :: ts =>
        match (call_users_api env (searchUserIds (t :: ts)) now s1).1 with
        | Resp.err _ => []
        | Resp.ok ub => ub.data.getD []

/-! ## Helper lemmas -/

theorem splitWs_inv (s : Str) (acc : List Str × Str)
    (h1 : ∀ w ∈ acc.1, w ≠ [] ∧ ∀ c ∈ w, pyIsSpace c = false)
    (h2 : ∀ c ∈ acc.2, pyIsSpace c = false) :
    (∀ w ∈ (s.foldr splitWsAux acc).1, w ≠ [] ∧ ∀ c ∈ w, pyIsSpace c = false) ∧
    (∀ c ∈ (s.foldr splitWsAux acc).2, pyIsSpace c = false) := by
  induction s with
  | nil => exact ⟨h1, h2⟩
  | cons c cs ih =>
    obtain ⟨ih1, ih2⟩ := ih
    simp only [List.foldr_cons]
    by_cases hc : pyIsSpace c = true
    · simp only [splitWsAux, hc, if_true]
      refine ⟨?_, by simp⟩
      intro w hw
      by_cases he : (cs.foldr splitWsAux acc).2 = []
      · simp only [he, if_true] at hw
        exact ih1 w hw
      · simp only [he, if_false] at hw
        rcases List.mem_cons.mp hw with rfl | hw'
        · exact ⟨he, ih2⟩
        · exact ih1 w hw'
    · simp only [splitWsAux, hc, if_false]
      refine ⟨ih1, ?_⟩
      intro d hd
      rcases List.mem_cons.mp hd with rfl | hd'
      · exact Bool.eq_false_iff.mpr hc
      · exact ih2 d hd'

theorem splitWs_mem (s : Str) (w : Str) (hw : w ∈ splitWs s) :
    w ≠ [] ∧ ∀ c ∈ w, pyIsSpace c = false := by
  have h := splitWs_inv s ([], []) (by simp) (by simp)
  unfold splitWs at hw
  by_cases he : (s.foldr splitWsAux ([], [])).2 = []
  · simp only [he, if_true] at hw
    exact h.1 w hw
  · simp only [he, if_false] at hw
    rcases List.mem_cons.mp hw with rfl | hw'
    · exact ⟨he, h.2⟩
    · exact h.1 w hw'

theorem splitWs_allspace (s : Str) (h : ∀ c ∈ s, pyIsSpace c = true) :
    splitWs s = [] := by
  have key : s.foldr splitWsAux ([], []) = ([], []) := by
    induction s with
    | nil => rfl
    | cons c cs ih =>
      simp only [List.foldr_cons]
      rw [ih (fun d hd => h d (List.mem_cons_of_mem c hd))]
      simp [splitWsAux, h c (List.mem_cons_self c cs)]
  unfold splitWs
  rw [key]
  rfl

theorem pyStrip_of_noSpace (w : Str) (h : ∀ c ∈ w, pyIsSpace c = false) :
    pyStrip w = w := by
  unfold pyStrip
  have h1 : w.dropWhile pyIsSpace = w := by
    cases w with
    | nil => rfl
    | cons c cs => simp [List.dropWhile_cons, h c (List.mem_cons_self c cs)]
  rw [h1]
  have h2 : w.reverse.dropWhile pyIsSpace = w.reverse := by
    cases hr : w.reverse with
    | nil => rfl
    | cons c cs =>
      have hc : c ∈ w := by
        have : c ∈ w.reverse := by rw [hr]; exact List.mem_cons_self c cs
        exact List.mem_reverse.mp this
      simp [List.dropWhile_cons, h c hc]
  rw [h2, List.reverse_reverse]

theorem mapSep_space (c : Char) (h : pyIsSpace c = true) :
    pyIsSpace (mapSep c) = true := by
  unfold mapSep
  split
  · decide
  · exact h

theorem cacheLookup_store_hit {K V : Type} [DecidableEq K]
    (c : List (K × V × Nat)) (k : K) (v : V) (now now' ttl : Nat)
    (h : now' - now < ttl) :
    cacheLookup (cacheStore c k v now) k now' ttl = some v := by
  unfold cacheLookup cacheStore
  rw [List.find?_cons_of_pos _ (by simp)]
  simp [h]

theorem search_raw_events_shape (env : Env) (p : SearchParams) (now : Nat) (s : SysState) :
    ∀ e ∈ (call_search_api_raw env p now s).2.2,
      e = Event.searchReq p now s.last429 ∨ ∃ lv m, e = Event.logRec lv m := by
  intro e he
  unfold call_search_api_raw at he
  split at he
  · simp at he
  · split at he
    · simp only [handle_429, List.mem_cons, List.mem_singleton] at he
      rcases he with rfl | rfl | h
      · exact Or.inl rfl
      · exact Or.inr ⟨_, _, rfl⟩
      · simp at h
    · split at he
      · simp only [handle_429, List.mem_cons, List.mem_singleton] at he
        rcases he with rfl | rfl | h
        · exact Or.inl rfl
        · exact Or.inr ⟨_, _, rfl⟩
        · simp at h
      · split at he
        · simp only [List.mem_singleton] at he
          exact Or.inl he
        · simp only [List.mem_cons, List.mem_singleton] at he
          rcases he with rfl | rfl | h
          · exact Or.inl rfl
          · exact Or.inr ⟨_, _, rfl⟩
          · simp at h

theorem search_raw_ok_state (env : Env) (p : SearchParams) (now : Nat) (s : SysState)
    (b : SearchBody) (h : (call_search_api_raw env p now s).1 = Resp.ok b) :
    (call_search_api_raw env p now s).2.1 = s := by
  unfold call_search_api_raw at h ⊢
  split at h
  · simp at h
  · split at h
    · simp at h
    · split at h
      · simp at h
      · split at h
        · simp_all
        · simp at h

theorem search_events_shape (env : Env) (p : SearchParams) (now : Nat) (s : SysState) :
    ∀ e ∈ (call_search_api env p now s).2.2,
      e = Event.searchReq p now s.last429 ∨ ∃ lv m, e = Event.logRec lv m := by
  intro e he
  unfold call_search_api at he
  split at he
  · simp at he
  · rcases hr : call_search_api_raw env p now s with ⟨r, s1, ev⟩
    rw [hr] at he
    simp only [] at he
    refine search_raw_events_shape env p now s e ?_
    rw [hr]
    exact he

theorem search_ok_last429 (env : Env) (p : SearchParams) (now : Nat) (s : SysState)
    (b : SearchBody) (h : (call_search_api env p now s).1 = Resp.ok b) :
    (call_search_api env p now s).2.1.last429 = s.last429 := by
  unfold call_search_api at h ⊢
  split at h
  · rfl
  · split at h
    rename_i r1 s1 ev1 heq
    simp only [] at h
    subst h
    have hs1 : s1 = s := by
      have h2 := search_raw_ok_state env p now s b (by rw [heq])
      rw [heq] at h2
      exact h2
    show s1.last429 = s.last429
    rw [hs1]

theorem users_raw_events_shape (env : Env) (ids : List String) (now : Nat) (s : SysState) :
    ∀ e ∈ (call_users_api_raw env ids now s).2.2,
      e = Event.usersReq ids now s.last429 ∨ ∃ lv m, e = Event.logRec lv m := by
  intro e he
  unfold call_users_api_raw at he
  split at he
  · simp at he
  · split at he
    · simp at he
    · split at he
      · simp only [handle_429, List.mem_cons, List.mem_singleton] at he
        rcases he with rfl | rfl | h
        · exact Or.inl rfl
        · exact Or.inr ⟨_, _, rfl⟩
        · simp at h
      · split at he
        · simp only [handle_429, List.mem_cons, List.mem_singleton] at he
          rcases he with rfl | rfl | h
          · exact Or.inl rfl
          · exact Or.inr ⟨_, _, rfl⟩
          · simp at h
        · split at he
          · simp only [List.mem_singleton] at he
            exact Or.inl he
          · simp only [List.mem_cons, List.mem_singleton] at he
            rcases he with rfl | rfl | h
            · exact Or.inl rfl
            · exact Or.inr ⟨_, _, rfl⟩
            · simp at h

theorem users_events_shape (env : Env) (ids : List String) (now : Nat) (s : SysState) :
    ∀ e ∈ (call_users_api env ids now s).2.2,
      e = Event.usersReq ids now s.last429 ∨ ∃ lv m, e = Event.logRec lv m := by
  intro e he
  unfold call_users_api at he
  split at he
  · simp at he
  · rcases hr : call_users_api_raw env ids now s with ⟨r, s1, ev⟩
    rw [hr] at he
    simp only [] at he
    refine users_raw_events_shape env ids now s e ?_
    rw [hr]
    exact he

theorem processTerm_cases (env : Env) (f : MonFilters) (mr : Nat) (s : SysState)
    (w : Str) (now : Nat) :
    (is_in_cooldown now s.last429 = true ∧
      processTerm env f mr s w now
        = ⟨s, [Event.logRec "WARN" "In cooldown; skipping searches"], []⟩) ∨
    (is_in_cooldown now s.last429 = false ∧
      ∃ s1 ev1,
        ((∃ m, call_search_api env (termParams w mr) now s = (Resp.err m, s1, ev1) ∧
           ∃ tail, (∀ e ∈ tail, (∃ lv msg, e = Event.logRec lv msg) ∨ ∃ msg, e = Event.uiMsg msg) ∧
             processTerm env f mr s w now = ⟨s1, ev1 ++ tail, []⟩) ∨
         (∃ body, call_search_api env (termParams w mr) now s = (Resp.ok body, s1, ev1) ∧
           ((body.data.getD [] = [] ∧
             processTerm env f mr s w now
               = ⟨s1, ev1 ++ [Event.logRec "INFO" (String.mk w ++ ": no hits"),
                              Event.histIns (quote_if_space w) 0], []⟩) ∨
            (∃ t ts s2 ev2, body.data.getD [] = t :: ts ∧
              ((∃ m, call_users_api env (searchUserIds (t :: ts)) now s1 = (Resp.err m, s2, ev2) ∧
                 processTerm env f mr s w now
                   = ⟨s2, ev1 ++ ev2 ++ [Event.logRec "ERROR" ("users error: " ++ m)], []⟩) ∨
               (∃ ub, call_users_api env (searchUserIds (t :: ts)) now s1 = (Resp.ok ub, s2, ev2) ∧
                 processTerm env f mr s w now
                   = ⟨s2, ev1 ++ ev2 ++ [Event.histIns (quote_if_space w) (ub.data.getD []).length],
                      (ub.data.getD []).filter (monitorAccountOk f)⟩))))))) := by
  by_cases hcd : is_in_cooldown now s.last429 = true
  · left
    refine ⟨hcd, ?_⟩
    unfold processTerm
    rw [if_pos hcd]
  · right
    have hcd' : is_in_cooldown now s.last429 = false := by
      simpa using hcd
    refine ⟨hcd', ?_⟩
    rcases hcs : call_search_api env (termParams w mr) now s with ⟨r, s1, ev1⟩
    refine ⟨s1, ev1, ?_⟩
    cases r with
    | err m =>
      left
      refine ⟨m, rfl, ?_⟩
      by_cases hm : m = "429"
      · refine ⟨[Event.uiMsg toast429], ?_, ?_⟩
        · intro e he
          simp only [List.mem_singleton] at he
          subst he
          exact Or.inr ⟨_, rfl⟩
        · simp only [processTerm, hcd', Bool.false_eq_true, if_false, hcs, hm, if_pos]
      · refine ⟨[Event.logRec "ERROR" ("search error for " ++ String.mk w ++ ": " ++ m)], ?_, ?_⟩
        · intro e he
          simp only [List.mem_singleton] at he
          subst he
          exact Or.inl ⟨_, _, rfl⟩
        · simp only [processTerm, hcd', Bool.false_eq_true, if_false, hcs, hm, if_neg]
    | ok body =>
      right
      refine ⟨body, rfl, ?_⟩
      rcases hdata : body.data.getD [] with _ | ⟨t, ts⟩
      · left
        refine ⟨rfl, ?_⟩
        simp only [processTerm, hcd', Bool.false_eq_true, if_false, hcs, hdata]
      · right
        rcases hcu : call_users_api env (searchUserIds (t :: ts)) now s1 with ⟨r2, s2, ev2⟩
        refine ⟨t, ts, s2, ev2, rfl, ?_⟩
        cases r2 with
        | err m =>
          left
          refine ⟨m, hcu, ?_⟩
          simp only [processTerm, hcd', Bool.false_eq_true, if_false, hcs, hdata, hcu]
        | ok ub =>
          right
          refine ⟨ub, hcu, ?_⟩
          simp only [processTerm, hcd', Bool.false_eq_true, if_false, hcs, hdata, hcu]

theorem dedupAux_nodup (l : List String) :
    ∀ seen, (dedupAux seen l).Nodup ∧ ∀ x ∈ dedupAux seen l, x ∉ seen := by
  induction l with
  | nil => intro seen; exact ⟨List.nodup_nil, by simp [dedupAux]⟩
  | cons x xs ih =>
    intro seen
    unfold dedupAux
    by_cases hx : x ∈ seen
    · rw [if_pos hx]
      exact ih seen
    · rw [if_neg hx]
      constructor
      · refine List.nodup_cons.mpr ⟨?_, (ih (x :: seen)).1⟩
        intro hmem
        exact (ih (x :: seen)).2 x hmem (List.mem_cons_self x seen)
      · intro y hy
        rcases List.mem_cons.mp hy with rfl | hy'
        · exact hx
        · intro hyseen
          exact (ih (x :: seen)).2 y hy' (List.mem_cons_of_mem x hyseen)

theorem searchUserIds_nodup (tweets : List Tweet) : (searchUserIds tweets).Nodup :=
  (dedupAux_nodup (tweets.map Tweet.author_id) []).1

theorem dictInsert_fst (d : List (String × MonUser)) (k : String) (v : MonUser) :
    (dictInsert d k v).map Prod.fst
      = if d.any (fun e => e.1 == k) then d.map Prod.fst else d.map Prod.fst ++ [k] := by
  unfold dictInsert
  split
  · rw [List.map_map]
    apply List.map_congr_left
    intro e _
    by_cases h : e.1 == k
    · simp only [Function.comp_apply, h, if_true]
      exact (eq_of_beq h).symm
    · have h2 : e.1 ≠ k := fun hh => h (by simp [hh])
      simp [h2]
  · simp [List.map_append]

theorem dictInsert_props (d : List (String × MonUser)) (k : String) (v : MonUser)
    (hn : (d.map Prod.fst).Nodup) (hi : ∀ e ∈ d, e.1 = e.2.id) (hkv : k = v.id) :
    ((dictInsert d k v).map Prod.fst).Nodup ∧ ∀ e ∈ dictInsert d k v, e.1 = e.2.id := by
  constructor
  · rw [dictInsert_fst]
    split
    · exact hn
    · rename_i hany
      rw [List.nodup_append]
      refine ⟨hn, List.nodup_singleton k, ?_⟩
      intro a ha hb
      simp only [List.mem_singleton] at hb
      subst hb
      obtain ⟨e, he, rfl⟩ := List.mem_map.mp ha
      rw [List.any_eq_true] at hany
      exact hany ⟨e, he, by simp⟩
  · intro e he
    unfold dictInsert at he
    split at he
    · obtain ⟨e0, he0, rfl⟩ := List.mem_map.mp he
      by_cases h : e0.1 == k
      · simp only [h, if_true]
        exact hkv
      · simp only [h, if_false]
        exact hi e0 he0
    · rcases List.mem_append.mp he with h1 | h2
      · exact hi e h1
      · simp only [List.mem_singleton] at h2
        subst h2
        exact hkv

theorem dictById_aux (us : List MonUser) :
    ∀ d0 : List (String × MonUser), (d0.map Prod.fst).Nodup → (∀ e ∈ d0, e.1 = e.2.id) →
      (((us.foldl (fun d u => dictInsert d u.id u) d0).map Prod.fst).Nodup ∧
       ∀ e ∈ us.foldl (fun d u => dictInsert d u.id u) d0, e.1 = e.2.id) := by
  induction us with
  | nil => intro d0 h1 h2; exact ⟨h1, h2⟩
  | cons u us ih =>
    intro d0 h1 h2
    simp only [List.foldl_cons]
    exact ih _ (dictInsert_props d0 u.id u h1 h2 rfl).1 (dictInsert_props d0 u.id u h1 h2 rfl).2

theorem dictById_props (us : List MonUser) :
    ((dictById us).map Prod.fst).Nodup ∧ ∀ e ∈ dictById us, e.1 = e.2.id :=
  dictById_aux us [] (by simp) (by simp)

theorem uniqueById_id_nodup (us : List MonUser) :
    ((uniqueById us).map MonUser.id).Nodup := by
  unfold uniqueById
  rw [List.map_map]
  have h : (dictById us).map (MonUser.id ∘ fun e => e.2) = (dictById us).map Prod.fst :=
    List.map_congr_left (fun e he => ((dictById_props us).2 e he).symm)
  rw [h]
  exact (dictById_props us).1

theorem dictInsert_mem (d : List (String × MonUser)) (k : String) (v : MonUser) :
    ∀ e ∈ dictInsert d k v, e ∈ d ∨ e = (k, v) := by
  intro e he
  unfold dictInsert at he
  split at he
  · obtain ⟨e0, he0, rfl⟩ := List.mem_map.mp he
    by_cases h : e0.1 == k
    · simp only [h, if_true]
      exact Or.inr trivial
    · simp only [h, if_false]
      exact Or.inl he0
  · rcases List.mem_append.mp he with h1 | h2
    · exact Or.inl h1
    · simp only [List.mem_singleton] at h2
      exact Or.inr h2

theorem dictById_mem_aux (us : List MonUser) :
    ∀ d0 : List (String × MonUser),
      ∀ e ∈ us.foldl (fun d u => dictInsert d u.id u) d0, e ∈ d0 ∨ e.2 ∈ us := by
  induction us with
  | nil => intro d0 e he; exact Or.inl he
  | cons u us ih =>
    intro d0 e he
    simp only [List.foldl_cons] at he
    rcases ih (dictInsert d0 u.id u) e he with h1 | h2
    · rcases dictInsert_mem d0 u.id u e h1 with h3 | h4
      · exact Or.inl h3
      · subst h4
        exact Or.inr (List.mem_cons_self u us)
    · exact Or.inr (List.mem_cons_of_mem u h2)

theorem uniqueById_sub (us : List MonUser) : ∀ u ∈ uniqueById us, u ∈ us := by
  intro u hu
  unfold uniqueById at hu
  obtain ⟨e, he, rfl⟩ := List.mem_map.mp hu
  rcases dictById_mem_aux us [] e he with h1 | h2
  · simp at h1
  · exact h2

theorem histCount_append (a b : List Event) :
    histCount (a ++ b) = histCount a + histCount b := by
  unfold histCount
  exact List.countP_append _ _ _

theorem histCount_eq_zero (l : List Event)
    (h : ∀ e ∈ l, ∀ q n, e ≠ Event.histIns q n) : histCount l = 0 := by
  unfold histCount
  rw [List.countP_eq_zero]
  intro e he
  cases e with
  | histIns q n => exact absurd rfl (h _ he q n)
  | searchReq p n l => simp
  | usersReq i n l => simp
  | logRec lv m => simp
  | uiMsg m => simp

theorem search_events_no_hist (env : Env) (p : SearchParams) (now : Nat) (s : SysState) :
    histCount (call_search_api env p now s).2.2 = 0 := by
  apply histCount_eq_zero
  intro e he q n
  rcases search_events_shape env p now s e he with rfl | ⟨lv, m, rfl⟩ <;> simp

theorem users_events_no_hist (env : Env) (ids : List String) (now : Nat) (s : SysState) :
    histCount (call_users_api env ids now s).2.2 = 0 := by
  apply histCount_eq_zero
  intro e he q n
  rcases users_events_shape env ids now s e he with rfl | ⟨lv, m, rfl⟩ <;> simp

theorem processTerm_coolOk (env : Env) (f : MonFilters) (mr : Nat) (s : SysState)
    (w : Str) (now : Nat) :
    ∀ ev ∈ (processTerm env f mr s w now).events, coolOkEv ev := by
  rcases processTerm_cases env f mr s w now with ⟨hcd, heq⟩ | ⟨hcd, s1, ev1, hcase⟩
  · rw [heq]
    intro ev hev
    simp only [List.mem_singleton] at hev
    subst hev
    trivial
  · intro ev hev
    rcases hcase with ⟨m, hcs, tail, htail, heq⟩ | ⟨body, hcs, hrest⟩
    · rw [heq] at hev
      rcases List.mem_append.mp hev with h1 | h2
      · rcases search_events_shape env (termParams w mr) now s ev
            (by rw [hcs]; exact h1) with rfl | ⟨lv, m2, rfl⟩
        · exact hcd
        · trivial
      · rcases htail ev h2 with ⟨lv, msg, rfl⟩ | ⟨msg, rfl⟩ <;> trivial
    · have hs1 : s1.last429 = s.last429 := by
        have h2 := search_ok_last429 env (termParams w mr) now s body (by rw [hcs])
        rw [hcs] at h2
        exact h2
      rcases hrest with ⟨hdata, heq⟩ | ⟨t, ts, s2, ev2, hdata, hrest2⟩
      · rw [heq] at hev
        rcases List.mem_append.mp hev with h1 | h2
        · rcases search_events_shape env (termParams w mr) now s ev
              (by rw [hcs]; exact h1) with rfl | ⟨lv, m2, rfl⟩
          · exact hcd
          · trivial
        · simp only [List.mem_cons, List.mem_singleton] at h2
          rcases h2 with rfl | rfl | hf
          · trivial
          · trivial
          · simp at hf
      · rcases hrest2 with ⟨m, hcu, heq⟩ | ⟨ub, hcu, heq⟩ <;> rw [heq] at hev <;>
        · rcases List.mem_append.mp hev with h12 | h3
          · rcases List.mem_append.mp h12 with h1 | h2
            · rcases search_events_shape env (termParams w mr) now s ev
                  (by rw [hcs]; exact h1) with rfl | ⟨lv, m2, rfl⟩
              · exact hcd
              · trivial
            · rcases users_events_shape env (searchUserIds (t :: ts)) now s1 ev
                  (by rw [hcu]; exact h2) with rfl | ⟨lv, m2, rfl⟩
              · show is_in_cooldown now s1.last429 = false
                rw [hs1]
                exact hcd
              · trivial
          · simp only [List.mem_singleton] at h3
            subst h3
            trivial

/-- Claim C1 amended: within one monitor cycle, a term iteration appends at
most one HistoryRecord, and it appends exactly one precisely when the
iteration's search is executed (no cooldown skip) and returns a success,
and either there are no hits or the account lookup also returns a success;
cooldown-skip, search-error and lookup-error iterations append none. -/
theorem c1_history_written_iff_success (env : Env) (f : MonFilters) (mr : Nat) (s : SysState)
    (w : Str) (now : Nat) :
    histCount (processTerm env f mr s w now).events
      = if termWritesHistory env mr s w now then 1 else 0 := by
  rcases processTerm_cases env f mr s w now with ⟨hcd, heq⟩ | ⟨hcd, s1, ev1, hcase⟩
  · rw [heq]
    unfold termWritesHistory
    rw [if_pos hcd]
    simp [histCount]
  · have hev1 : histCount ev1 = 0 := by
      rcases hcase with ⟨m, hcs, _, _, _⟩ | ⟨body, hcs, _⟩ <;>
        · have h0 := search_events_no_hist env (termParams w mr) now s
          rw [hcs] at h0
          exact h0
    rcases hcase with ⟨m, hcs, tail, htail, heq⟩ | ⟨body, hcs, hrest⟩
    · have htw : termWritesHistory env mr s w now = false := by
        unfold termWritesHistory
        rw [hcd]
        simp only [Bool.false_eq_true, if_false]
        rw [hcs]
      rw [heq, htw]
      have htail0 : histCount tail = 0 := by
        apply histCount_eq_zero
        intro e he q n
        rcases htail e he with ⟨lv, msg, rfl⟩ | ⟨msg, rfl⟩ <;> simp
      simp [histCount_append, hev1, htail0]
    · rcases hrest with ⟨hdata, heq⟩ | ⟨t, ts, s2, ev2, hdata, hrest2⟩
      · have htw : termWritesHistory env mr s w now = true := by
          unfold termWritesHistory
          rw [hcd]
          simp only [Bool.false_eq_true, if_false]
          rw [hcs]
          simp only [hdata]
        rw [heq, htw]
        rw [histCount_append, hev1]
        rfl
      · have hev2 : histCount ev2 = 0 := by
          rcases hrest2 with ⟨m, hcu, _⟩ | ⟨ub, hcu, _⟩ <;>
            · have h0 := users_events_no_hist env (searchUserIds (t :: ts)) now s1
              rw [hcu] at h0
              exact h0
        rcases hrest2 with ⟨m, hcu, heq⟩ | ⟨ub, hcu, heq⟩
        · have htw : termWritesHistory env mr s w now = false := by
            unfold termWritesHistory
            rw [hcd]
            simp only [Bool.false_eq_true, if_false]
            rw [hcs]
            simp only [hdata, hcu]
          rw [heq, htw]
          rw [histCount_append, histCount_append, hev1, hev2]
          rfl
        · have htw : termWritesHistory env mr s w now = true := by
            unfold termWritesHistory
            rw [hcd]
            simp only [Bool.false_eq_true, if_false]
            rw [hcs]
            simp only [hdata, hcu]
          rw [heq, htw]
          rw [histCount_append, histCount_append, hev1, hev2]
          rfl

theorem processTerm_disc (env : Env) (f : MonFilters) (mr : Nat) (s : SysState)
    (w : Str) (now : Nat) :
    (processTerm env f mr s w now).disc
      = (fetchedUsersOfTerm env mr s w now).filter (monitorAccountOk f) := by
  rcases processTerm_cases env f mr s w now with ⟨hcd, heq⟩ | ⟨hcd, s1, ev1, hcase⟩
  · have hfu : fetchedUsersOfTerm env mr s w now = [] := by
      unfold fetchedUsersOfTerm
      rw [if_pos hcd]
    rw [heq, hfu]
    rfl
  · rcases hcase with ⟨m, hcs, tail, htail, heq⟩ | ⟨body, hcs, hrest⟩
    · have hfu : fetchedUsersOfTerm env mr s w now = [] := by
        unfold fetchedUsersOfTerm
        rw [hcd]
        simp only [Bool.false_eq_true, if_false]
        rw [hcs]
      rw [heq, hfu]
      rfl
    · rcases hrest with ⟨hdata, heq⟩ | ⟨t, ts, s2, ev2, hdata, hrest2⟩
      · have hfu : fetchedUsersOfTerm env mr s w now = [] := by
          unfold fetchedUsersOfTerm
          rw [hcd]
          simp only [Bool.false_eq_true, if_false]
          rw [hcs]
          simp only [hdata]
        rw [heq, hfu]
        rfl
      · rcases hrest2 with ⟨m, hcu, heq⟩ | ⟨ub, hcu, heq⟩
        · have hfu : fetchedUsersOfTerm env mr s w now = [] := by
            unfold fetchedUsersOfTerm
            rw [hcd]
            simp only [Bool.false_eq_true, if_false]
            rw [hcs]
            simp only [hdata, hcu]
          rw [heq, hfu]
          rfl
        · have hfu : fetchedUsersOfTerm env mr s w now = ub.data.getD [] := by
            unfold fetchedUsersOfTerm
            rw [hcd]
            simp only [Bool.false_eq_true, if_false]
            rw [hcs]
            simp only [hdata, hcu]
          rw [heq, hfu]

theorem processTerm_usersReq_nodup (env : Env) (f : MonFilters) (mr : Nat) (s : SysState)
    (w : Str) (now : Nat) :
    ∀ ids n l, Event.usersReq ids n l ∈ (processTerm env f mr s w now).events → ids.Nodup := by
  intro ids n l hev
  rcases processTerm_cases env f mr s w now with ⟨hcd, heq⟩ | ⟨hcd, s1, ev1, hcase⟩
  · rw [heq] at hev
    simp at hev
  · have hno1 : ∀ (hcsv : Resp SearchBody × SysState × List Event),
        call_search_api env (termParams w mr) now s = hcsv →
        Event.usersReq ids n l ∈ hcsv.2.2 → False := by
      intro hcsv hcs hmem
      rcases search_events_shape env (termParams w mr) now s _
          (by rw [hcs]; exact hmem) with h | ⟨lv, m2, h⟩ <;> cases h
    rcases hcase with ⟨m, hcs, tail, htail, heq⟩ | ⟨body, hcs, hrest⟩
    · rw [heq] at hev
      rcases List.mem_append.mp hev with h1 | h2
      · exact absurd h1 (fun h => hno1 _ hcs h)
      · rcases htail _ h2 with ⟨lv, msg, h⟩ | ⟨msg, h⟩ <;> cases h
    · rcases hrest with ⟨hdata, heq⟩ | ⟨t, ts, s2, ev2, hdata, hrest2⟩
      · rw [heq] at hev
        rcases List.mem_append.mp hev with h1 | h2
        · exact absurd h1 (fun h => hno1 _ hcs h)
        · simp at h2
      · have hids : Event.usersReq ids n l ∈ ev2 → ids.Nodup := by
          intro hmem
          have hsh : ∀ (hcuv : Resp UsersBody × SysState × List Event),
              call_users_api env (searchUserIds (t :: ts)) now s1 = hcuv →
              Event.usersReq ids n l ∈ hcuv.2.2 → ids = searchUserIds (t :: ts) := by
            intro hcuv hcu hmem2
            rcases users_events_shape env (searchUserIds (t :: ts)) now s1 _
                (by rw [hcu]; exact hmem2) with h | ⟨lv, m2, h⟩
            · cases h
              rfl
            · cases h
          rcases hrest2 with ⟨m, hcu, _⟩ | ⟨ub, hcu, _⟩ <;>
            · rw [hsh _ hcu hmem]
              exact searchUserIds_nodup (t :: ts)
        rcases hrest2 with ⟨m, hcu, heq⟩ | ⟨ub, hcu, heq⟩ <;> rw [heq] at hev <;>
        · rcases List.mem_append.mp hev with h12 | h3
          · rcases List.mem_append.mp h12 with h1 | h2
            · exact absurd h1 (fun h => hno1 _ hcs h)
            · exact hids h2
          · simp at h3

theorem monitorLoop_events_mem (env : Env) (f : MonFilters) (mr : Nat) :
    ∀ (terms : List (Str × Nat)) (s : SysState) (ev : Event),
      ev ∈ (monitorLoop env f mr terms s).events →
      ∃ s1 w now, ev ∈ (processTerm env f mr s1 w now).events := by
  intro terms
  induction terms with
  | nil => intro s ev hev; simp [monitorLoop] at hev
  | cons tw rest ih =>
    intro s ev hev
    rcases tw with ⟨w, now⟩
    simp only [monitorLoop] at hev
    rcases List.mem_append.mp hev with h1 | h2
    · exact ⟨s, w, now, h1⟩
    · exact ih _ ev h2

theorem monitorLoop_disc_mem (env : Env) (f : MonFilters) (mr : Nat) :
    ∀ (terms : List (Str × Nat)) (s : SysState) (u : MonUser),
      u ∈ (monitorLoop env f mr terms s).disc →
      ∃ s1 w now, u ∈ (processTerm env f mr s1 w now).disc := by
  intro terms
  induction terms with
  | nil => intro s u hu; simp [monitorLoop] at hu
  | cons tw rest ih =>
    intro s u hu
    rcases tw with ⟨w, now⟩
    simp only [monitorLoop] at hu
    rcases List.mem_append.mp hu with h1 | h2
    · exact ⟨s, w, now, h1⟩
    · exact ih _ u h2

theorem monitor_job_once_events (env : Env) (f : MonFilters) (mr : Nat)
    (terms : List (Str × Nat)) (s : SysState) :
    ∀ ev ∈ (monitor_job_once env f mr terms s).events,
      ev ∈ (monitorLoop env f mr terms s).events ∨ ∃ lv m, ev = Event.logRec lv m := by
  intro ev hev
  unfold monitor_job_once at hev
  simp only [] at hev
  rcases List.mem_append.mp hev with h1 | h2
  · exact Or.inl h1
  · split at h2
    · simp at h2
    · simp only [List.mem_singleton] at h2
      exact Or.inr ⟨_, _, h2⟩

theorem run_query_flow_cases (env : Env) (mr : Nat) (raw : Str) (now : Nat) (s : SysState) :
    (is_in_cooldown now s.last429 = true ∧
      (run_query_flow env mr raw now s).2 = [Event.uiMsg rateLimitMsg]) ∨
    (is_in_cooldown now s.last429 = false ∧
      (((build_query raw mr).1 = [] ∧
         (run_query_flow env mr raw now s).2 = [Event.uiMsg "NGワードを入力してください。"]) ∨
       ((build_query raw mr).1 ≠ [] ∧ (build_query raw mr).2 = none ∧
         (run_query_flow env mr raw now s).2 = []) ∨
       (∃ p s1 ev1, (build_query raw mr).1 ≠ [] ∧ (build_query raw mr).2 = some p ∧
         ((∃ m, call_search_api env p now s = (Resp.err m, s1, ev1) ∧
            (run_query_flow env mr raw now s).2
              = ev1 ++ [Event.uiMsg ("検索エラー: " ++ m)]) ∨
          (∃ body, call_search_api env p now s = (Resp.ok body, s1, ev1) ∧
            ((body.data.getD [] = [] ∧
               (run_query_flow env mr raw now s).2
                 = ev1 ++ [Event.histIns (build_query raw mr).1 0]
                     ++ [Event.uiMsg "該当するツイートはありませんでした。"]) ∨
             (∃ s2 ev2, body.data.getD [] ≠ [] ∧
               ((∃ m, call_users_api env (searchUserIds (body.data.getD [])) now s1
                     = (Resp.err m, s2, ev2) ∧
                  (run_query_flow env mr raw now s).2
                    = ev1 ++ [Event.histIns (build_query raw mr).1 (body.data.getD []).length]
                        ++ ev2 ++ [Event.uiMsg ("ユーザー情報取得エラー: " ++ m)]) ∨
                (∃ ub, call_users_api env (searchUserIds (body.data.getD [])) now s1
                     = (Resp.ok ub, s2, ev2) ∧
                  (run_query_flow env mr raw now s).2
                    = ev1 ++ [Event.histIns (build_query raw mr).1 (body.data.getD []).length]
                        ++ ev2))))))))) := by
  by_cases hcd : is_in_cooldown now s.last429 = true
  · left
    refine ⟨hcd, ?_⟩
    unfold run_query_flow
    rw [if_pos hcd]
  · right
    have hcd2 : is_in_cooldown now s.last429 = false := by simpa using hcd
    refine ⟨hcd2, ?_⟩
    by_cases hq : (build_query raw mr).1 = []
    · left
      refine ⟨hq, ?_⟩
      unfold run_query_flow
      rw [hcd2]
      simp only [Bool.false_eq_true, if_false]
      rw [if_pos hq]
    · right
      cases hpo : (build_query raw mr).2 with
      | none =>
        left
        refine ⟨hq, rfl, ?_⟩
        unfold run_query_flow
        rw [hcd2]
        simp only [Bool.false_eq_true, if_false]
        rw [if_neg hq, hpo]
      | some p =>
        right
        rcases hcs : call_search_api env p now s with ⟨r, s1, ev1⟩
        refine ⟨p, s1, ev1, hq, rfl, ?_⟩
        cases r with
        | err m =>
          left
          refine ⟨m, hcs, ?_⟩
          unfold run_query_flow
          rw [hcd2]
          simp only [Bool.false_eq_true, if_false]
          rw [if_neg hq, hpo]
          dsimp only
          rw [hcs]
        | ok body =>
          right
          refine ⟨body, hcs, ?_⟩
          by_cases hdata : body.data.getD [] = []
          · left
            refine ⟨hdata, ?_⟩
            unfold run_query_flow
            rw [hcd2]
            simp only [Bool.false_eq_true, if_false]
            rw [if_neg hq, hpo]
            dsimp only
            rw [hcs]
            simp [hdata]
          · right
            rcases hcu : call_users_api env (searchUserIds (body.data.getD [])) now s1
              with ⟨r2, s2, ev2⟩
            refine ⟨s2, ev2, hdata, ?_⟩
            cases r2 with
            | err m =>
              left
              refine ⟨m, rfl, ?_⟩
              unfold run_query_flow
              rw [hcd2]
              simp only [Bool.false_eq_true, if_false]
              rw [if_neg hq, hpo]
              dsimp only
              rw [hcs]
              dsimp only
              rw [if_neg hdata, hcu]
            | ok ub =>
              right
              refine ⟨ub, rfl, ?_⟩
              unfold run_query_flow
              rw [hcd2]
              simp only [Bool.false_eq_true, if_false]
              rw [if_neg hq, hpo]
              dsimp only
              rw [hcs]
              dsimp only
              rw [if_neg hdata, hcu]

theorem run_query_flow_coolOk (env : Env) (mr : Nat) (raw : Str) (now : Nat) (s : SysState) :
    ∀ ev ∈ (run_query_flow env mr raw now s).2, coolOkEv ev := by
  intro ev hev
  rcases run_query_flow_cases env mr raw now s with ⟨hcd, heq⟩ | ⟨hcd, hrest⟩
  · rw [heq] at hev
    simp only [List.mem_singleton] at hev
    subst hev
    trivial
  · rcases hrest with ⟨hq, heq⟩ | ⟨hq, hpo, heq⟩ | ⟨p, s1, ev1, hq, hpo, hrest2⟩
    · rw [heq] at hev
      simp only [List.mem_singleton] at hev
      subst hev
      trivial
    · rw [heq] at hev
      simp at hev
    · have hshape : ∀ e ∈ ev1, coolOkEv e := by
        intro e he
        have hmem : e ∈ (call_search_api env p now s).2.2 := by
          rcases hrest2 with ⟨m, hcs, _⟩ | ⟨body, hcs, _⟩ <;> rw [hcs] <;> exact he
        rcases search_events_shape env p now s e hmem with rfl | ⟨lv, m2, rfl⟩
        · exact hcd
        · trivial
      rcases hrest2 with ⟨m, hcs, heq⟩ | ⟨body, hcs, hrest3⟩
      · rw [heq] at hev
        rcases List.mem_append.mp hev with h1 | h2
        · exact hshape ev h1
        · simp only [List.mem_singleton] at h2
          subst h2
          trivial
      · have hs1 : s1.last429 = s.last429 := by
          have h2 := search_ok_last429 env p now s body (by rw [hcs])
          rw [hcs] at h2
          exact h2
        rcases hrest3 with ⟨hdata, heq⟩ | ⟨s2, ev2, hdata, hrest4⟩
        · rw [heq] at hev
          rcases List.mem_append.mp hev with h12 | h3
          · rcases List.mem_append.mp h12 with h1 | h2
            · exact hshape ev h1
            · simp only [List.mem_singleton] at h2
              subst h2
              trivial
          · simp only [List.mem_singleton] at h3
            subst h3
            trivial
        · have hshape2 : ∀ e ∈ ev2, coolOkEv e := by
            intro e he
            have hmem : e ∈ (call_users_api env (searchUserIds (body.data.getD [])) now s1).2.2 := by
              rcases hrest4 with ⟨m, hcu, _⟩ | ⟨ub, hcu, _⟩ <;> rw [hcu] <;> exact he
            rcases users_events_shape env (searchUserIds (body.data.getD [])) now s1 e hmem
              with rfl | ⟨lv, m2, rfl⟩
            · show is_in_cooldown now s1.last429 = false
              rw [hs1]
              exact hcd
            · trivial
          rcases hrest4 with ⟨m, hcu, heq⟩ | ⟨ub, hcu, heq⟩ <;> rw [heq] at hev
          · rcases List.mem_append.mp hev with h123 | h4
            · rcases List.mem_append.mp h123 with h12 | h3
              · rcases List.mem_append.mp h12 with h1 | h2
                · exact hshape ev h1
                · simp only [List.mem_singleton] at h2
                  subst h2
                  trivial
              · exact hshape2 ev h3
            · simp only [List.mem_singleton] at h4
              subst h4
              trivial
          · rcases List.mem_append.mp hev with h12 | h3
            · rcases List.mem_append.mp h12 with h1 | h2
              · exact hshape ev h1
              · simp only [List.mem_singleton] at h2
                subst h2
                trivial
            · exact hshape2 ev h3

theorem run_query_flow_usersReq_nodup (env : Env) (mr : Nat) (raw : Str) (now : Nat)
    (s : SysState) :
    ∀ ids n l, Event.usersReq ids n l ∈ (run_query_flow env mr raw now s).2 → ids.Nodup := by
  intro ids n l hev
  rcases run_query_flow_cases env mr raw now s with ⟨hcd, heq⟩ | ⟨hcd, hrest⟩
  · rw [heq] at hev
    simp at hev
  · rcases hrest with ⟨hq, heq⟩ | ⟨hq, hpo, heq⟩ | ⟨p, s1, ev1, hq, hpo, hrest2⟩
    · rw [heq] at hev
      simp at hev
    · rw [heq] at hev
      simp at hev
    · have hno1 : Event.usersReq ids n l ∈ ev1 → False := by
        intro hmem
        have hmem2 : Event.usersReq ids n l ∈ (call_search_api env p now s).2.2 := by
          rcases hrest2 with ⟨m, hcs, _⟩ | ⟨body, hcs, _⟩ <;> rw [hcs] <;> exact hmem
        rcases search_events_shape env p now s _ hmem2 with h | ⟨lv, m2, h⟩ <;> cases h
      rcases hrest2 with ⟨m, hcs, heq⟩ | ⟨body, hcs, hrest3⟩
      · rw [heq] at hev
        rcases List.mem_append.mp hev with h1 | h2
        · exact absurd h1 hno1
        · simp at h2
      · rcases hrest3 with ⟨hdata, heq⟩ | ⟨s2, ev2, hdata, hrest4⟩
        · rw [heq] at hev
          rcases List.mem_append.mp hev with h12 | h3
          · rcases List.mem_append.mp h12 with h1 | h2
            · exact absurd h1 hno1
            · simp at h2
          · simp at h3
        · have hids : Event.usersReq ids n l ∈ ev2 → ids.Nodup := by
            intro hmem
            have hmem2 : Event.usersReq ids n l
                ∈ (call_users_api env (searchUserIds (body.data.getD [])) now s1).2.2 := by
              rcases hrest4 with ⟨m, hcu, _⟩ | ⟨ub, hcu, _⟩ <;> rw [hcu] <;> exact hmem
            rcases users_events_shape env (searchUserIds (body.data.getD [])) now s1 _ hmem2
              with h | ⟨lv, m2, h⟩
            · cases h
              exact searchUserIds_nodup (body.data.getD [])
            · cases h
          rcases hrest4 with ⟨m, hcu, heq⟩ | ⟨ub, hcu, heq⟩ <;> rw [heq] at hev
          · rcases List.mem_append.mp hev with h123 | h4
            · rcases List.mem_append.mp h123 with h12 | h3
              · rcases List.mem_append.mp h12 with h1 | h2
                · exact absurd h1 hno1
                · simp at h2
              · exact hids h3
            · simp at h4
          · rcases List.mem_append.mp hev with h12 | h3
            · rcases List.mem_append.mp h12 with h1 | h2
              · exact absurd h1 hno1
              · simp at h2
            · exact hids h3

/-- Concrete single-tweet environment for exercising the monitor filter:
the search returns one tweet by author `a1` and the lookup returns the
unverified account `c4u`. -/
def c4u : MonUser :=
  ⟨"a1", some "bob", some "Bob", some "http://pic", false,
   some [("tweet_count", 0), ("followers_count", 5), ("following_count", 6)]⟩

/-- Network environment delivering `c4u` for any term. -/
def c4Env : Env :=
  ⟨some "tok", fun _ => HttpOutcome.resp 200 "" ⟨some [⟨"a1", "x", "y"⟩]⟩,
   fun _ => HttpOutcome.resp 200 "" ⟨some [c4u]⟩⟩

/-- A UI criteria snapshot with only `verified_only` active. -/
def c4ui : UICriteria := ⟨false, false, 0, 0, true, 0⟩

/-- Network environment whose search returns authors `1,1,2,3,3` and whose
lookup returns no account objects. -/
def c5Env : Env :=
  ⟨some "tok",
   fun _ => HttpOutcome.resp 200 ""
     ⟨some [⟨"1", "x", "y"⟩, ⟨"1", "x2", "y2"⟩, ⟨"2", "x3", "y3"⟩,
            ⟨"3", "x4", "y4"⟩, ⟨"3", "x5", "y5"⟩]⟩,
   fun _ => HttpOutcome.resp 200 "" ⟨some []⟩⟩

/-! ## Claim theorems -/

/-- Claim C6: the cooldown predicate is purely a time comparison — after a
429 recorded at time `t` it is `true` at any instant less than 60 seconds
later and `false` once 60 seconds have elapsed (no reset needed), and with
no recorded rate-limit signal it is `false`. -/
theorem c6_cooldown_window (s : SysState) (t now : Nat) (_h : t ≤ now) :
    (handle_429 t s).1.last429 = some t ∧
    (now - t < 60 → is_in_cooldown now (handle_429 t s).1.last429 = true) ∧
    (60 ≤ now - t → is_in_cooldown now (handle_429 t s).1.last429 = false) ∧
    is_in_cooldown now none = false := by
  refine ⟨rfl, ?_, ?_, rfl⟩ <;> intro h1 <;>
    simp [handle_429, is_in_cooldown, RATE_COOLDOWN_SECONDS] <;> omega

/-- Witness for C6: trip at 10; at 30 the limiter is cooling down, at 100
it has auto-cleared. -/
theorem c6_cooldown_window_witness :
    is_in_cooldown 30 ((handle_429 10 ⟨none, [], []⟩).1.last429) = true ∧
    is_in_cooldown 100 ((handle_429 10 ⟨none, [], []⟩).1.last429) = false :=
  ⟨(c6_cooldown_window ⟨none, [], []⟩ 10 30 (by decide)).2.1 (by decide),
   (c6_cooldown_window ⟨none, [], []⟩ 10 100 (by decide)).2.2.1 (by decide)⟩

/-- Claim C8: normalization yields only non-empty terms with no leading or
trailing whitespace; an empty or whitespace-only input normalizes to the
empty sequence, in which case `build_query` returns the empty-query signal
and the foreground flow issues no API request. -/
theorem c8_normalize_terms (raw : Str) (mr : Nat) (env : Env) (now : Nat) (s : SysState) :
    (∀ t ∈ normalize_words raw, t ≠ [] ∧ pyStrip t = t) ∧
    ((raw = [] ∨ ∀ c ∈ raw, pyIsSpace c = true) → normalize_words raw = []) ∧
    (normalize_words raw = [] →
      build_query raw mr = ([], none) ∧
      ∀ ev ∈ (run_query_flow env mr raw now s).2,
        (∀ p n l, ev ≠ Event.searchReq p n l) ∧ (∀ ids n l, ev ≠ Event.usersReq ids n l)) := by
  refine ⟨?_, ?_, ?_⟩
  · intro t ht
    unfold normalize_words at ht
    by_cases hr : raw = []
    · simp [hr] at ht
    · simp only [hr, if_false] at ht
      obtain ⟨w, hw, hsome⟩ := List.mem_filterMap.mp ht
      by_cases he : pyStrip w = []
      · simp [he] at hsome
      · simp only [he, if_false, Option.some.injEq] at hsome
        obtain ⟨-, hchars⟩ := splitWs_mem (raw.map mapSep) w hw
        have hs : pyStrip w = w := pyStrip_of_noSpace w hchars
        subst hsome
        rw [hs]
        exact ⟨fun hn => he (hs.trans hn), hs⟩
  · rintro (rfl | hsp)
    · rfl
    · unfold normalize_words
      by_cases hr : raw = []
      · simp [hr]
      · simp only [hr, if_false]
        rw [splitWs_allspace (raw.map mapSep) ?_]
        · rfl
        · intro c hc
          obtain ⟨d, hd, rfl⟩ := List.mem_map.mp hc
          exact mapSep_space d (hsp d hd)
  · intro hn
    refine ⟨by simp [build_query, hn], ?_⟩
    intro ev hev
    unfold run_query_flow at hev
    by_cases hc : is_in_cooldown now s.last429 = true
    · simp only [hc, if_true, List.mem_singleton] at hev
      subst hev
      exact ⟨(fun p n l h => by cases h), (fun ids n l h => by cases h)⟩
    · simp only [Bool.not_eq_true] at hc
      simp only [hc, Bool.false_eq_true, if_false] at hev
      have hbq : (build_query raw mr).1 = [] := by simp [build_query, hn]
      simp only [hbq, if_true, List.mem_singleton] at hev
      subst hev
      exact ⟨(fun p n l h => by cases h), (fun ids n l h => by cases h)⟩

/-- Witness for C8: the input `" spam, scam "` yields trimmed non-empty
terms, and the whitespace-only input `" "` yields no terms, the
empty-query signal and a request-free foreground run. -/
theorem c8_normalize_terms_witness :
    ("spam".data ≠ [] ∧ pyStrip ("spam".data) = "spam".data) ∧
    normalize_words (" ".data) = [] ∧
    build_query (" ".data) 30 = ([], none) :=
  ⟨(c8_normalize_terms (" spam, scam ".data) 30
      ⟨none, fun _ => HttpOutcome.exn "", fun _ => HttpOutcome.exn ""⟩ 0 ⟨none, [], []⟩).1
      ("spam".data) (by decide),
   (c8_normalize_terms (" ".data) 30
      ⟨none, fun _ => HttpOutcome.exn "", fun _ => HttpOutcome.exn ""⟩ 0 ⟨none, [], []⟩).2.1
      (Or.inr (by decide)),
   ((c8_normalize_terms (" ".data) 30
      ⟨none, fun _ => HttpOutcome.exn "", fun _ => HttpOutcome.exn ""⟩ 0 ⟨none, [], []⟩).2.2
      (by decide)).1⟩

/-- Counterexample to claim C3: a search whose first issue at time 0
returns HTTP 500 stores the error dict in the `st.cache_data` cache; the
identical request at time 10 returns the cached error and emits no request
event — the call is not re-issued, contradicting the claim that an error
outcome is never cached. -/
theorem c3_counterexample :
    (call_search_api c3Env c3P 10 (call_search_api c3Env c3P 0 ⟨none, [], []⟩).2.1).1
      = Resp.err "500 boom" ∧
    (call_search_api c3Env c3P 10 (call_search_api c3Env c3P 0 ⟨none, [], []⟩).2.1).2.2
      = [] := by
  constructor <;> rfl

/-- Claim C3 amended: every outcome of a search or account-lookup call —
success or error alike — is stored in the 300-second response cache keyed
by the exact request parameters, and a repeat of the same parameters
within the window returns the stored outcome without issuing a new
request. -/
theorem c3_cache_stores_every_outcome (env : Env) (p : SearchParams) (ids : List String)
    (now now' : Nat) (s : SysState)
    (hs : cacheLookup s.searchCache p now 300 = none)
    (hu : cacheLookup s.usersCache ids now 300 = none)
    (h1 : now' - now < 300) :
    ((call_search_api env p now' (call_search_api env p now s).2.1).1
        = (call_search_api env p now s).1 ∧
     (call_search_api env p now' (call_search_api env p now s).2.1).2.2 = []) ∧
    ((call_users_api env ids now' (call_users_api env ids now s).2.1).1
        = (call_users_api env ids now s).1 ∧
     (call_users_api env ids now' (call_users_api env ids now s).2.1).2.2 = []) := by
  constructor
  · rcases hraw : call_search_api_raw env p now s with ⟨r, s1, ev⟩
    have hfirst : call_search_api env p now s
        = (r, { s1 with searchCache := cacheStore s1.searchCache p r now }, ev) := by
      unfold call_search_api
      rw [hs, hraw]
    rw [hfirst]
    have hl := cacheLookup_store_hit s1.searchCache p r now now' 300 h1
    unfold call_search_api
    simp only []
    rw [hl]
    exact ⟨rfl, rfl⟩
  · rcases hraw : call_users_api_raw env ids now s with ⟨r, s1, ev⟩
    have hfirst : call_users_api env ids now s
        = (r, { s1 with usersCache := cacheStore s1.usersCache ids r now }, ev) := by
      unfold call_users_api
      rw [hu, hraw]
    rw [hfirst]
    have hl := cacheLookup_store_hit s1.usersCache ids r now now' 300 h1
    unfold call_users_api
    simp only []
    rw [hl]
    exact ⟨rfl, rfl⟩

/-- Witness for the amended C3: with a cold cache, a successful search at
time 0 is replayed from the cache at time 5 with no new request. -/
theorem c3_cache_stores_every_outcome_witness :
    (call_search_api c3EnvOk c3P 5 (call_search_api c3EnvOk c3P 0 ⟨none, [], []⟩).2.1).1
      = (call_search_api c3EnvOk c3P 0 ⟨none, [], []⟩).1 ∧
    (call_search_api c3EnvOk c3P 5 (call_search_api c3EnvOk c3P 0 ⟨none, [], []⟩).2.1).2.2
      = [] :=
  (c3_cache_stores_every_outcome c3EnvOk c3P [] 0 5 ⟨none, [], []⟩ rfl rfl (by decide)).1

/-- Counterexample to claim C9: with the credential missing, the
account-lookup body invoked on an empty id set returns the not-configured
error dict, not the empty result the claim demands for every empty-id
invocation — the credential check precedes the empty-id check. -/
theorem c9_counterexample :
    (call_users_api ⟨none, (fun _ => HttpOutcome.exn "x"), (fun _ => HttpOutcome.exn "x")⟩
        [] 0 ⟨none, [], []⟩).1 = Resp.err "API token not set" ∧
    (call_users_api ⟨none, (fun _ => HttpOutcome.exn "x"), (fun _ => HttpOutcome.exn "x")⟩
        [] 0 ⟨none, [], []⟩).1 ≠ Resp.ok ⟨some []⟩ := by
  exact ⟨rfl, by decide⟩

/-- Claim C9 amended: when the credential is configured, an account lookup
on an empty id set returns the empty result `{"data": []}` without issuing
a network request; when the credential is missing, every lookup — the
empty-id one included — returns the not-configured error without issuing a
network request (the credential check runs first). -/
theorem c9_empty_ids_no_call (env : Env) (ids : List String) (now : Nat) (s : SysState) :
    (env.bearer ≠ none → call_users_api_raw env [] now s = (Resp.ok ⟨some []⟩, s, [])) ∧
    (env.bearer = none → call_users_api_raw env ids now s
      = (Resp.err "API token not set", s, [])) := by
  constructor
  · intro h
    unfold call_users_api_raw
    cases hb : env.bearer with
    | none => exact absurd hb h
    | some b => simp
  · intro h
    unfold call_users_api_raw
    rw [h]

/-- Witness for the amended C9: configured credential, empty id set. -/
theorem c9_empty_ids_no_call_witness :
    call_users_api_raw ⟨some "tok", (fun _ => HttpOutcome.exn "x"), (fun _ => HttpOutcome.exn "x")⟩
        [] 7 ⟨none, [], []⟩ = (Resp.ok ⟨some []⟩, ⟨none, [], []⟩, []) :=
  (c9_empty_ids_no_call ⟨some "tok", (fun _ => HttpOutcome.exn "x"), (fun _ => HttpOutcome.exn "x")⟩
    [] 7 ⟨none, [], []⟩).1 (by simp)

/-- Counterexample to claim C1: a cycle over the single watch-term `spam`
whose search returns HTTP 500 appends no HistoryRecord at all (the
iteration is abandoned before `db_insert_history`), contradicting "exactly
one record per term per cycle regardless of outcome". -/
theorem c1_counterexample :
    histCount (monitor_job_once
      ⟨some "tok", (fun _ => HttpOutcome.resp 500 "boom" ⟨none⟩), (fun _ => HttpOutcome.exn "x")⟩
      ⟨false, 0, 0⟩ 30 [("spam".data, 0)] ⟨none, [], []⟩).events = 0 := by
  rfl

/-- Claim C2: every outbound request — search and account lookup, on the
background monitor path and the foreground run-once path — is issued only
while the limiter is not cooling down (each request event records the
clock and limiter state at issue time), and when the cooldown is active at
the gate the iteration/run skips the calls, the monitor logging a warning
and the foreground showing the rate-limit message. -/
theorem c2_cooldown_gates_all_calls (env : Env) (f : MonFilters) (mr : Nat)
    (terms : List (Str × Nat)) (s : SysState) (raw : Str) (now2 : Nat) (s2 : SysState)
    (w : Str) (nw : Nat) :
    (∀ ev ∈ (monitor_job_once env f mr terms s).events, coolOkEv ev) ∧
    (∀ ev ∈ (run_query_flow env mr raw now2 s2).2, coolOkEv ev) ∧
    (is_in_cooldown nw s.last429 = true →
      (processTerm env f mr s w nw).events
        = [Event.logRec "WARN" "In cooldown; skipping searches"]) ∧
    (is_in_cooldown now2 s2.last429 = true →
      (run_query_flow env mr raw now2 s2).2 = [Event.uiMsg rateLimitMsg]) := by
  refine ⟨?_, run_query_flow_coolOk env mr raw now2 s2, ?_, ?_⟩
  · intro ev hev
    rcases monitor_job_once_events env f mr terms s ev hev with h1 | ⟨lv, m, rfl⟩
    · obtain ⟨s1, w1, n1, hmem⟩ := monitorLoop_events_mem env f mr terms s ev h1
      exact processTerm_coolOk env f mr s1 w1 n1 ev hmem
    · trivial
  · intro hcd
    rcases processTerm_cases env f mr s w nw with ⟨_, heq⟩ | ⟨hcd2, _⟩
    · rw [heq]
    · rw [hcd] at hcd2
      simp at hcd2
  · intro hcd
    rcases run_query_flow_cases env mr raw now2 s2 with ⟨_, heq⟩ | ⟨hcd2, _⟩
    · exact heq
    · rw [hcd] at hcd2
      simp at hcd2

/-- Witness for C2: with the limiter tripped at 0 and the clock at 10, a
monitor iteration skips its calls and only logs the warning. -/
theorem c2_cooldown_gates_all_calls_witness :
    (processTerm ⟨some "tok", (fun _ => HttpOutcome.exn "x"), (fun _ => HttpOutcome.exn "x")⟩
        ⟨false, 0, 0⟩ 30 ⟨some 0, [], []⟩ ("spam".data) 10).events
      = [Event.logRec "WARN" "In cooldown; skipping searches"] :=
  (c2_cooldown_gates_all_calls
      ⟨some "tok", (fun _ => HttpOutcome.exn "x"), (fun _ => HttpOutcome.exn "x")⟩
      ⟨false, 0, 0⟩ 30 [] ⟨some 0, [], []⟩ [] 0 ⟨none, [], []⟩ ("spam".data) 10).2.2.1
    (by decide)

/-- Counterexample to claim C4: with only `verified_only` active in the UI
snapshot, a monitor cycle still discovers the unverified account `c4u`,
because `start_mon` hands the scheduler only three of the six criteria —
the six-criterion filter of the spec rejects this account. -/
theorem c4_counterexample :
    c4u ∈ (monitor_job_once c4Env (start_mon_filters c4ui) 30
            [("spam".data, 0)] ⟨none, [], []⟩).disc ∧
    specSixCriteriaMatches c4ui c4u = false := by
  constructor
  · have h : (monitor_job_once c4Env (start_mon_filters c4ui) 30
        [("spam".data, 0)] ⟨none, [], []⟩).disc = [c4u] := by rfl
    rw [h]
    exact List.mem_singleton.mpr rfl
  · rfl

/-- Claim C4 amended: within one monitor cycle every fetched account is
evaluated against exactly the three criteria the `start_mon` handler
passes (`require_no_posts`, `min_followers`, `min_following`): each term
iteration keeps precisely the fetched accounts that satisfy the
three-criterion check, and every account discovered by the cycle satisfies
that same snapshot; the other three UI criteria are not applied on the
monitor path. -/
theorem c4_three_criteria_uniform (env : Env) (f : MonFilters) (mr : Nat) (s : SysState)
    (w : Str) (now : Nat) (terms : List (Str × Nat)) :
    ((processTerm env f mr s w now).disc
        = (fetchedUsersOfTerm env mr s w now).filter (monitorAccountOk f)) ∧
    (∀ u ∈ (monitor_job_once env f mr terms s).disc, monitorAccountOk f u = true) := by
  refine ⟨processTerm_disc env f mr s w now, ?_⟩
  intro u hu
  have hrfl : (monitor_job_once env f mr terms s).disc
      = uniqueById (monitorLoop env f mr terms s).disc := rfl
  rw [hrfl] at hu
  have hu2 : u ∈ (monitorLoop env f mr terms s).disc := uniqueById_sub _ u hu
  obtain ⟨s1, w1, n1, hmem⟩ := monitorLoop_disc_mem env f mr terms s u hu2
  rw [processTerm_disc env f mr s1 w1 n1] at hmem
  exact (List.mem_filter.mp hmem).2

/-- Witness for the amended C4: the discovered account `c4u` satisfies the
three-criterion snapshot actually given to the scheduler. -/
theorem c4_three_criteria_uniform_witness :
    monitorAccountOk (start_mon_filters c4ui) c4u = true :=
  (c4_three_criteria_uniform c4Env (start_mon_filters c4ui) 30 ⟨none, [], []⟩
      ("spam".data) 0 [("spam".data, 0)]).2 c4u (by decide)

/-- Claim C5: every id list handed to the account-lookup call (on the
monitor path and on the foreground path) contains each author id at most
once, and the cycle-final discovered-account collection contains each
account id at most once. -/
theorem c5_dedup_everywhere (env : Env) (f : MonFilters) (mr : Nat)
    (terms : List (Str × Nat)) (s : SysState) (raw : Str) (now2 : Nat) (s2 : SysState) :
    (∀ ids n l, Event.usersReq ids n l ∈ (monitor_job_once env f mr terms s).events →
      ids.Nodup) ∧
    ((monitor_job_once env f mr terms s).disc.map MonUser.id).Nodup ∧
    (∀ ids n l, Event.usersReq ids n l ∈ (run_query_flow env mr raw now2 s2).2 →
      ids.Nodup) := by
  refine ⟨?_, ?_, run_query_flow_usersReq_nodup env mr raw now2 s2⟩
  · intro ids n l hev
    rcases monitor_job_once_events env f mr terms s _ hev with h1 | ⟨lv, m, h⟩
    · obtain ⟨s1, w1, n1, hmem⟩ := monitorLoop_events_mem env f mr terms s _ h1
      exact processTerm_usersReq_nodup env f mr s1 w1 n1 ids n l hmem
    · cases h
  · have hrfl : (monitor_job_once env f mr terms s).disc
        = uniqueById (monitorLoop env f mr terms s).disc := rfl
    rw [hrfl]
    exact uniqueById_id_nodup _

/-- Witness for C5: the cycle whose search returns author ids
`[1,1,2,3,3]` issues its lookup with the deduplicated list `[1,2,3]`,
which has no duplicates. -/
theorem c5_dedup_everywhere_witness : (["1", "2", "3"] : List String).Nodup :=
  (c5_dedup_everywhere c5Env ⟨false, 0, 0⟩ 30 [("spam".data, 0)] ⟨none, [], []⟩
      [] 0 ⟨none, [], []⟩).1 ["1", "2", "3"] 0 none (by decide)

set_option maxHeartbeats 1000000 in
/-- Claim C7: the foreground account filter is monotonic — activating one
additional criterion (a boolean flipped from false to true, or a `min_*`
threshold raised from zero to a positive value) never turns a non-passing
row into a passing one: a row passing the stricter criteria also passes
the original ones. -/
theorem c7_filter_monotonic (c c2 : UICriteria) (r : Row)
    (hact : activated c c2) (hpass : rowPasses c2 r = true) : rowPasses c r = true := by
  rcases hact with ⟨h, rfl⟩ | ⟨h, rfl⟩ | ⟨h, rfl⟩ |
    ⟨h, k, hk, rfl⟩ | ⟨h, k, hk, rfl⟩ | ⟨h, k, hk, rfl⟩ <;>
    simp only [rowPasses, Bool.and_eq_true, Bool.or_eq_true, decide_eq_true_eq] at hpass ⊢ <;>
    obtain ⟨⟨⟨⟨⟨h1, h2⟩, h3⟩, h4⟩, h5⟩, h6⟩ := hpass
  · exact ⟨⟨⟨⟨⟨by simp [h], h2⟩, h3⟩, h4⟩, h5⟩, h6⟩
  · exact ⟨⟨⟨⟨⟨h1, by simp [h]⟩, h3⟩, h4⟩, h5⟩, h6⟩
  · exact ⟨⟨⟨⟨⟨h1, h2⟩, h3⟩, h4⟩, by simp [h]⟩, h6⟩
  · exact ⟨⟨⟨⟨⟨h1, h2⟩, by simp [h]⟩, h4⟩, h5⟩, h6⟩
  · exact ⟨⟨⟨⟨⟨h1, h2⟩, h3⟩, by simp [h]⟩, h5⟩, h6⟩
  · exact ⟨⟨⟨⟨⟨h1, h2⟩, h3⟩, h4⟩, h5⟩, by simp [h]⟩

/-- Witness for C7: activating `verified_only` on an otherwise
unconstrained snapshot; a verified row passing the stricter filter passes
the original one. -/
theorem c7_filter_monotonic_witness :
    rowPasses ⟨false, false, 0, 0, false, 0⟩ ⟨some 5, some 10, some 10, true, some "x"⟩ = true :=
  c7_filter_monotonic ⟨false, false, 0, 0, false, 0⟩ ⟨false, false, 0, 0, true, 0⟩
    ⟨some 5, some 10, some 10, true, some "x"⟩
    (Or.inr (Or.inr (Or.inl ⟨rfl, rfl⟩))) (by decide)

/-- Claim C10: on the monitor path an account whose `public_metrics` is
missing, empty, or lacks `tweet_count` gets post count 0, so with only
`require_no_posts` active such an account passes the filter; by contrast,
an active `min_followers` (resp. `min_following`) threshold fails whenever
the followers (resp. following) metadata is absent. -/
theorem c10_missing_metrics (u : MonUser) (f : MonFilters) :
    ((pmOf u).find? (fun e => e.1 == "tweet_count") = none →
      tweetCountOf u = 0 ∧ monitorAccountOk ⟨true, 0, 0⟩ u = true) ∧
    ((pmOf u).find? (fun e => e.1 == "followers_count") = none → f.min_followers ≠ 0 →
      monitorAccountOk f u = false) ∧
    ((pmOf u).find? (fun e => e.1 == "following_count") = none → f.min_following ≠ 0 →
      monitorAccountOk f u = false) := by
  refine ⟨?_, ?_, ?_⟩
  · intro ht
    have htc : tweetCountOf u = 0 := by
      unfold tweetCountOf dictGet
      rw [ht]
    exact ⟨htc, by simp [monitorAccountOk, htc]⟩
  · intro hf hmf
    have hb : belowMin (followerCountOf u) f.min_followers = true := by
      unfold followerCountOf
      by_cases hpm : pmOf u = []
      · rw [if_pos hpm]
        rfl
      · rw [if_neg hpm]
        unfold belowMin dictGet
        rw [hf]
        simp [Nat.pos_of_ne_zero hmf]
    simp [monitorAccountOk, hb, hmf]
  · intro hg hmg
    have hb : belowMin (followingCountOf u) f.min_following = true := by
      unfold followingCountOf
      by_cases hpm : pmOf u = []
      · rw [if_pos hpm]
        rfl
      · rw [if_neg hpm]
        unfold belowMin dictGet
        rw [hg]
        simp [Nat.pos_of_ne_zero hmg]
    simp [monitorAccountOk, hb, hmg]

/-- Witness for C10: an account with no `public_metrics` object at all
passes a require-no-posts-only filter and fails a min-followers filter. -/
theorem c10_missing_metrics_witness :
    tweetCountOf ⟨"u1", none, none, none, false, none⟩ = 0 ∧
    monitorAccountOk ⟨true, 0, 0⟩ ⟨"u1", none, none, none, false, none⟩ = true ∧
    monitorAccountOk ⟨false, 5, 0⟩ ⟨"u1", none, none, none, false, none⟩ = false :=
  ⟨((c10_missing_metrics ⟨"u1", none, none, none, false, none⟩ ⟨false, 5, 0⟩).1 (by decide)).1,
   ((c10_missing_metrics ⟨"u1", none, none, none, false, none⟩ ⟨false, 5, 0⟩).1 (by decide)).2,
   (c10_missing_metrics ⟨"u1", none, none, none, false, none⟩ ⟨false, 5, 0⟩).2.1
     (by decide) (by decide)⟩

end TN
